import Mathlib

set_option maxHeartbeats 1000000

/-!
Verification of the oauth2-proxy session authentication & authorization
pipeline: the email/domain credential validator, the OIDC identity provider
(token refresh, claim extraction, email verification), the Azure Entra
multi-tenant provider variant (issuer check, group overage resolution), and
the declarative header injector.

Go strings are modelled as `List Char` (ASCII-faithful); Go's `(value, err)`
returns become `Except String α`; in-place session mutation becomes explicit
state passing; Go panics are modelled by the `Outcome` type.  Network and
collaborator calls (token endpoint, verifier, profile endpoint, Microsoft
Graph, secret resolution) are parameters of the model.
-/

/-- Go `string`, modelled as a list of characters. -/
abbrev Str := List Char

/-- Convert a Lean string literal into the `Str` model. -/
def str (s : String) : Str := s.data

/-- Go `strings.ToLower`, restricted to ASCII (all inputs in this
development are ASCII).  `Char.toLower` lowers exactly the ASCII range. -/
def lower (s : Str) : Str := s.map Char.toLower

/-- ASCII whitespace, the fragment of `unicode.IsSpace` exercised here. -/
def isSpaceChar (c : Char) : Bool := c = ' ' || c = '\t' || c = '\n' || c = '\r'

/-- Go `strings.TrimSpace` (ASCII whitespace). -/
def trimSpace (s : Str) : Str :=
  ((s.dropWhile isSpaceChar).reverse.dropWhile isSpaceChar).reverse

/-- Go `strings.HasSuffix`. -/
def goEndsWith (s suffix : Str) : Bool := decide (suffix <:+ s)

/-- Go `strings.HasPrefix`. -/
def goStartsWith (s p : Str) : Bool := decide (p <+: s)

/-- Go `strings.Contains`. -/
def goContains (s sub : Str) : Bool := decide (sub <:+: s)

/-- Normalization applied to each line of the authenticated-emails file:
trim surrounding whitespace, then case-fold. -/
def normalizeEmail (line : Str) : Str := lower (trimSpace line)

/-- Modelled from the spec: the credential validator's matching algorithm
(`newValidatorImpl`); only its test suite `validator_test.go` is under
`src/`.  Follows spec §4.1: fail closed on empty configuration, case-fold
the query, accept emails present in the loaded list, otherwise try each
domain pattern.  A pattern with a leading dot matches iff the folded email
ends with the pattern (so only proper subdomains at a label boundary, as the
spec and `TestValidatorSubDomains` agree).  For a pattern without a leading
dot the spec's sentence (apex or any subdomain) contradicts the test suite
(`EmailNotInAnySubdomain` requires `global@au.example.com` NOT to match
`example.com`); we model what the tests pin down: the folded email must end
with `"@" + pattern`, i.e. the domain must equal the pattern exactly.
`authorize_matches_validator_test_vectors` below checks this definition
against every row of `validator_test.go`. -/
def authorize (domains allowedEmails : List Str) (email : Str) : Bool :=
  if email = [] then false
  else
    let e := lower email
    let ds := domains.map lower
    let domainOk := ds.any fun d =>
      if goStartsWith d (str ".") then goEndsWith e d
      else goEndsWith e ('@' :: d)
    let users := (allowedEmails.map normalizeEmail).filter (fun u => u ≠ [])
    domainOk || users.contains e

/-! ## Header injector (`src/pkg/header/injector.go`) -/

/-- `options.SecretSource`: an opaque reference resolved by an external
secret-resolution collaborator (`util.GetSecretValue`, not under `src/`). -/
structure SecretSource where
  ref : Str
deriving Repr

/-- `options.ClaimSource`.  `pfx` models the Go field `Prefix`. -/
structure ClaimSource where
  claim : Str
  basicAuthPassword : Option SecretSource := none
  pfx : Str := []

/-- `options.ScopeSource`. -/
structure ScopeSource where
  field : Str

/-- `options.HeaderValue`: at most one of the three sources is intended to
be set; the constructor validates this (see `newValueinjector`). -/
structure HeaderValue where
  secretSource : Option SecretSource := none
  claimSource : Option ClaimSource := none
  scopeSource : Option ScopeSource := none

/-- The per-request scope handed to injectors: access to the session's
claims (`scope.Session.GetClaim`) and to request-scope metadata fields. -/
structure RequestScope where
  getClaim : Str → List Str
  getField : Str → Str

/-- `http.Header` restricted to what injection observes: an ordered list of
(name, value) entries; `Header.Add` appends one entry. -/
abbrev Header := List (Str × Str)

/-- `http.Header.Add`. -/
def headerAdd (h : Header) (name value : Str) : Header := h ++ [(name, value)]

/-- A built value injector (`valueInjector.inject`). -/
abbrev Injector := Header → RequestScope → Header

/-- The base64 standard alphabet (`encoding/base64.StdEncoding`). -/
def base64Alphabet : Str :=
  str "ABCDEFGHIJKLMNOPQRSTUVWXYZabcdefghijklmnopqrstuvwxyz0123456789+/"

def b64Char (n : Nat) : Char := base64Alphabet.getD n 'A'

/-- `base64.StdEncoding.EncodeToString` over byte values. -/
def base64Encode : List Nat → Str
  | [] => []
  | [a] => [b64Char (a / 4 % 64), b64Char (a % 4 * 16), '=', '=']
  | [a, b] => [b64Char (a / 4 % 64), b64Char (a % 4 * 16 + b / 16 % 16), b64Char (b % 16 * 4), '=']
  | a :: b :: c :: rest =>
    [b64Char (a / 4 % 64), b64Char (a % 4 * 16 + b / 16 % 16),
     b64Char (b % 16 * 4 + c / 64 % 4), b64Char (c % 64)] ++ base64Encode rest

/-- `newSecretInjector`: resolve the secret once at construction, then
append the literal value on each invocation. -/
def newSecretInjector (resolve : SecretSource → Except String Str)
    (name : Str) (source : SecretSource) : Except String Injector :=
  match resolve source with
  | .error _ => .error "error getting secret value"
  | .ok value => .ok (fun header _ => headerAdd header name value)

/-- `newClaimInjector`: basic-auth combination, configured prefix, or
verbatim claim values; empty claim values are skipped in every branch. -/
def newClaimInjector (resolve : SecretSource → Except String Str)
    (name : Str) (source : ClaimSource) : Except String Injector :=
  match source.basicAuthPassword with
  | some bas =>
    match resolve bas with
    | .error _ => .error "error loading basicAuthPassword"
    | .ok password => .ok (fun header scope =>
        (scope.getClaim source.claim).foldl (fun h claim =>
          if claim = [] then h
          else headerAdd h name
            (str "Basic " ++ base64Encode ((claim ++ ':' :: password).map Char.toNat))) header)
  | none =>
    if source.pfx ≠ [] then
      .ok (fun header scope =>
        (scope.getClaim source.claim).foldl (fun h claim =>
          if claim = [] then h else headerAdd h name (source.pfx ++ claim)) header)
    else
      .ok (fun header scope =>
        (scope.getClaim source.claim).foldl (fun h claim =>
          if claim = [] then h else headerAdd h name claim) header)

/-- `newScopeInjector`: copy one request-scope metadata field. -/
def newScopeInjector (name : Str) (source : ScopeSource) : Except String Injector :=
  .ok (fun header scope => headerAdd header name (scope.getField source.field))

/-- `newValueinjector`: mirrors the Go `switch` case by case —
`SecretSource != nil && ClaimSource == nil` picks the secret injector,
`SecretSource == nil && ClaimSource != nil` the claim injector, otherwise
`ScopeSource != nil` the scope injector, and the `default` case errors.
The third case is reached when the secret and claim sources are both set or
both unset. -/
def newValueinjector (resolve : SecretSource → Except String Str)
    (name : Str) (value : HeaderValue) : Except String Injector :=
  match value.secretSource, value.claimSource, value.scopeSource with
  | some s, none, _ => newSecretInjector resolve name s
  | none, some c, _ => newClaimInjector resolve name c
  | some _, some _, some sc => newScopeInjector name sc
  | none, none, some sc => newScopeInjector name sc
  | _, _, _ => .error "header value has multiple entries: only one entry per value is allowed"

/-- `NewInjector` over one header's values. -/
def buildValueInjectors (resolve : SecretSource → Except String Str)
    (name : Str) : List HeaderValue → Except String (List Injector)
  | [] => .ok []
  | v :: vs =>
    match newValueinjector resolve name v with
    | .error _ => .error "error building injector for header"
    | .ok i =>
      match buildValueInjectors resolve name vs with
      | .error e => .error e
      | .ok is => .ok (i :: is)

/-- `NewInjector`: build all value injectors in configuration order. -/
def NewInjector (resolve : SecretSource → Except String Str) :
    List (Str × List HeaderValue) → Except String (List Injector)
  | [] => .ok []
  | (n, vs) :: hs =>
    match buildValueInjectors resolve n vs with
    | .error e => .error e
    | .ok is =>
      match NewInjector resolve hs with
      | .error e => .error e
      | .ok rest => .ok (is ++ rest)

/-- `Except.isOk` (avoids depending on library naming). -/
def isOkE {ε α : Type _} : Except ε α → Bool
  | .ok _ => true
  | .error _ => false

/-! ## Session state and the OIDC provider (`src/unnamed/part_001`) -/

/-- `sessions.SessionState`, restricted to the fields the verified
operations read or write.  Times are Unix instants. -/
structure SessionState where
  idToken : Str := []
  accessToken : Str := []
  refreshToken : Str := []
  createdAt : Int := 0
  expiresOn : Int := 0
  userID : Str := []
  userIDType : Str := []
  user : Str := []
  preferredUsername : Str := []
  groups : List Str := []

/-- `&sessions.SessionState{}`. -/
def emptySession : SessionState := {}

/-- The `OIDCClaims` struct: fields unmarshalled from the ID token plus the
derived `UserID`/`UserIDType` (blank after parsing, `json:"-"`). -/
structure OIDCClaims where
  userID : Str := []
  userIDType : Str := []
  subject : Str := []
  email : Str := []
  verified : Option Bool := none
  phoneNumber : Str := []
  phoneNumberVerified : Option Bool := none
  preferredUsername : Str := []

/-- A verified `oidc.IDToken`: its expiry and the outcome of
`idToken.Claims(&claims)` (JSON unmarshalling into `OIDCClaims`). -/
structure IDTokenData where
  expiry : Int := 0
  claimsResult : Except String OIDCClaims := .ok {}

/-- An `oauth2.Token` as returned by the token endpoint:
`Extra("id_token").(string)` with the two-value form yields `""` when the
metadata is absent, modelled by `idTokenExtra = none`. -/
structure OAuthToken where
  accessToken : Str := []
  refreshToken : Str := []
  expiry : Int := 0
  idTokenExtra : Option Str := none

/-- Static provider configuration read by the OIDC code paths. -/
structure OIDCProviderData where
  profileURL : Str := []
  allowUnverifiedEmail : Bool := false
  userIDClaims : List Str := []

/-- External collaborators of the OIDC provider: client secret lookup, the
refresh-token exchange (keyed by the refresh token), ID-token verification,
the profile-endpoint email fallback (profile URL, access token), and the
current time. -/
structure OIDCEnv where
  clientSecret : Except String Str := .ok []
  exchangeRefresh : Str → Except String OAuthToken := fun _ => .error "no exchange"
  verify : Str → Except String IDTokenData := fun _ => .error "no verifier"
  fetchProfileEmail : Str → Str → Except String Str := fun _ _ => .error "no profile"
  now : Int := 0

/-- `tryFetchEmail`: use a nonempty email claim directly, otherwise fall
back to one profile-endpoint call. -/
def tryFetchEmail (env : OIDCEnv) (emailClaim accessToken profileURL : Str) :
    Except String Str :=
  if emailClaim ≠ [] then .ok emailClaim
  else if profileURL = [] then
    .error "id_token did not contain an email and no profile-url for trying to fetch it specified"
  else if accessToken = [] then
    .error "id_token did not contain an email and no access token provided to fetch it from the profile-url"
  else env.fetchProfileEmail profileURL accessToken

/-- The user-id-claim loop of `findClaimsFromIDToken`: stop at the first
kind that produced a nonempty `UserID`; the `email` kind may consult the
profile endpoint (its error is discarded, leaving an empty email); an
unsupported kind is a configuration error. -/
def deriveUserID (env : OIDCEnv) (accessToken profileURL : Str) :
    List Str → OIDCClaims → Except String OIDCClaims
  | [], claims => .ok claims
  | k :: ks, claims =>
    if claims.userID ≠ [] then .ok claims
    else if k = str "email" then
      let claims :=
        if claims.email = [] then
          { claims with email :=
              match tryFetchEmail env claims.email accessToken profileURL with
              | .ok e => e
              | .error _ => [] }
        else claims
      deriveUserID env accessToken profileURL ks
        { claims with userID := claims.email, userIDType := k }
    else if k = str "phone_number" then
      deriveUserID env accessToken profileURL ks
        { claims with userID := claims.phoneNumber, userIDType := k }
    else .error "asked for an unsupported used-id-claim; supported: email, phone_number"

/-- `findClaimsFromIDToken`: parse the claims, derive the user id, and fail
when no configured kind yielded one. -/
def findClaimsFromIDToken (env : OIDCEnv) (idToken : IDTokenData)
    (accessToken profileURL : Str) (userIDClaims : List Str) :
    Except String OIDCClaims :=
  match idToken.claimsResult with
  | .error _ => .error "failed to parse id_token claims"
  | .ok claims =>
    match deriveUserID env accessToken profileURL userIDClaims claims with
    | .error e => .error e
    | .ok claims =>
      if claims.userID = [] then
        .error "id_token contained none of the user id claims"
      else .ok claims

/-- `createSessionStateInternal`: populate identity fields from the claims
and enforce email verification (reject an explicit `email_verified = false`
unless unverified email is allowed). -/
def createSessionStateInternal (p : OIDCProviderData) (env : OIDCEnv)
    (rawIDToken : Str) (idToken : Option IDTokenData) (token : Option OAuthToken) :
    Except String SessionState :=
  match idToken with
  | none => .ok emptySession
  | some idt =>
    let accessToken := match token with
      | some t => t.accessToken
      | none => []
    match findClaimsFromIDToken env idt accessToken p.profileURL p.userIDClaims with
    | .error _ => .error "could not extract claims from id_token"
    | .ok claims =>
      let newSession := { emptySession with
        idToken := rawIDToken
        userID := claims.userID
        userIDType := claims.userIDType
        user := claims.subject
        preferredUsername := claims.preferredUsername }
      let verifyEmail : Bool :=
        decide (claims.userIDType = str "email") && !p.allowUnverifiedEmail
      if verifyEmail && claims.verified.any (fun v => !v) then
        .error "email in id_token is not verified"
      else .ok newSession

/-- `findVerifiedIDToken`: an ID token is present when the `id_token`
metadata is a nonblank string; it is then verified (a verification failure
is an error), otherwise the result is `none` without error. -/
def findVerifiedIDToken (env : OIDCEnv) (token : OAuthToken) :
    Except String (Option IDTokenData) :=
  let rawIDToken := token.idTokenExtra.getD []
  if (trimSpace rawIDToken).length > 0 then
    match env.verify rawIDToken with
    | .error e => .error e
    | .ok idt => .ok (some idt)
  else .ok none

/-- `createSessionState`: derive identity fields when an ID token is
present (an absent ID token yields an empty base session), then overlay
`AccessToken`, `RefreshToken`, `CreatedAt` (now) and `ExpiresOn`
unconditionally from the token response. -/
def createSessionState (p : OIDCProviderData) (env : OIDCEnv)
    (token : OAuthToken) (idToken : Option IDTokenData) :
    Except String SessionState :=
  match (match idToken with
         | none => Except.ok emptySession
         | some idt =>
           createSessionStateInternal p env (token.idTokenExtra.getD []) (some idt) (some token)) with
  | .error e => .error e
  | .ok base => .ok { base with
      accessToken := token.accessToken
      refreshToken := token.refreshToken
      createdAt := env.now
      expiresOn := token.expiry }

/-- `redeemRefreshToken`: exchange the refresh token, build the new session
state, retain the previously derived identity fields when the response
carried no ID token, and overwrite the token fields unconditionally. -/
def redeemRefreshToken (p : OIDCProviderData) (env : OIDCEnv)
    (s : SessionState) : Except String SessionState :=
  match env.clientSecret with
  | .error e => .error e
  | .ok _ =>
  match env.exchangeRefresh s.refreshToken with
  | .error _ => .error "failed to get token"
  | .ok token =>
  match findVerifiedIDToken env token with
  | .error _ => .error "unable to extract id_token from response"
  | .ok idToken =>
  match createSessionState p env token idToken with
  | .error _ => .error "unable create new session state from response"
  | .ok newSession =>
    let s1 := if newSession.idToken ≠ [] then
        { s with
          idToken := newSession.idToken
          userID := newSession.userID
          userIDType := newSession.userIDType
          user := newSession.user
          preferredUsername := newSession.preferredUsername }
      else s
    .ok { s1 with
      accessToken := newSession.accessToken
      refreshToken := newSession.refreshToken
      createdAt := newSession.createdAt
      expiresOn := newSession.expiresOn }

/-- `RefreshSessionIfNeeded`: no-op on a nil session, an unexpired session,
or a session without refresh token; otherwise redeem the refresh token (a
failure is a hard error and leaves the session untouched). -/
def RefreshSessionIfNeeded (p : OIDCProviderData) (env : OIDCEnv) :
    Option SessionState → Except String (Bool × Option SessionState)
  | none => .ok (false, none)
  | some s =>
    if s.expiresOn > env.now ∨ s.refreshToken = [] then .ok (false, some s)
    else
      match redeemRefreshToken p env s with
      | .error _ => .error "unable to redeem refresh token"
      | .ok s2 => .ok (true, some s2)

/-! ## Azure Entra OIDC provider (`src/providers/azure-entra-oidc.go`) -/

/-- The result of a Go computation that may panic. -/
inductive Outcome (α : Type _)
  | ok (a : α)
  | panicked
deriving Repr, DecidableEq

/-- A dynamically typed claim value (`interface{}`), as handed out by the
claim extractor: a string, a map (as used by `_claim_names`), or some other
shape. -/
inductive GoVal
  | vStr (s : Str)
  | vMap (m : List (Str × Str))
  | vOther

/-- Modelled from the spec: the claim extractor's raw claim access
(`ClaimExtractor.GetClaim`, under `pkg/apis/middleware`, not in `src/`).
The extractor holds the ID token's claim set; a lookup returns the claim's
value with `exists = true`, or the nil interface with `exists = false` when
the claim is absent (spec §2: "raw claim access for overage-indicator
fields ... and issuer"). -/
abbrev Extractor := List (Str × GoVal)

/-- Association lookup with string keys (Go map / claim lookup). -/
def lookupClaim : Extractor → Str → Option GoVal
  | [], _ => none
  | (k, v) :: rest, key => if k = key then some v else lookupClaim rest key

/-- `GetClaim`: `(value, exists, error)`, with `value = none` modelling the
nil interface returned for an absent claim. -/
def getClaim (ex : Extractor) (key : Str) : Option GoVal × Bool × Option String :=
  match lookupClaim ex key with
  | some v => (some v, true, none)
  | none => (none, false, none)

/-- `cast.ToStringMapString`: a map converts to itself, anything else to
the nil map. -/
def toStringMapString : GoVal → List (Str × Str)
  | .vMap m => m
  | _ => []

/-- String-keyed lookup in a converted claim map. -/
def lookupStr : List (Str × Str) → Str → Option Str
  | [], _ => none
  | (k, v) :: rest, key => if k = key then some v else lookupStr rest key

/-- Modelled from the spec: `util.RemoveDuplicateStr` (under `pkg/util`,
not in `src/`): deduplicate a string slice, keeping the first occurrence of
each element ("merges returned identifiers into the session's existing
group set, removing duplicates"). -/
def removeDuplicateStrAux (seen : List Str) : List Str → List Str
  | [] => []
  | x :: xs =>
    if x ∈ seen then removeDuplicateStrAux seen xs
    else x :: removeDuplicateStrAux (x :: seen) xs

def removeDuplicateStr (l : List Str) : List Str := removeDuplicateStrAux [] l

/-- `AzureEntraOIDCProvider` configuration: multi-tenant flag (issuer URL
contains "common"), graph-group skip flag, and the tenant allow-list
(`nil` vs a present slice is significant in `ValidateSession`). -/
structure AzureProviderData where
  isMultiTenant : Bool := false
  skipGraphGroups : Bool := false
  multiTenantAllowedTenants : Option (List Str) := none

/-- External collaborators of the Azure provider: the base OIDC provider's
`EnrichSession`/`ValidateSession`, the claim extractor factory for a
session's tokens, and the Microsoft Graph group fetch (the ids extracted
from the response's `value[i].id` fields). -/
structure AzureEnv where
  baseEnrich : SessionState → SessionState × Option String :=
    fun s => (s, none)
  baseValidate : SessionState → Bool := fun _ => true
  getClaimExtractor : Str → Str → Except String Extractor :=
    fun _ _ => .error "no extractor"
  graphGroups : Except String (List Str) := .error "no graph"

/-- `checkGroupOverage`: the `_claim_names` (or `hasGroups`) claim, when
present and containing a `groups` key, signals a group overage. -/
def checkGroupOverage (env : AzureEnv) (s : SessionState) : Bool × Option String :=
  match env.getClaimExtractor s.idToken s.accessToken with
  | .error _ => (false, some "unable to get claim extractor")
  | .ok ex =>
    let (claimNames, _, _) := getClaim ex (str "_claim_names")
    let (hasGroups, _, _) := getClaim ex (str "hasGroups")
    match claimNames, hasGroups with
    | none, none => (false, none)
    | _, _ =>
      let claimNamesMap :=
        match claimNames with
        | some v => toStringMapString v
        | none => toStringMapString (hasGroups.getD .vOther)
      ((lookupStr claimNamesMap (str "groups")).isSome, none)

/-- `addGraphGroupsToSesion`: merge the Graph-returned group ids into the
session's groups, deduplicating; a fetch/parse failure is a hard error and
leaves the session unchanged. -/
def addGraphGroupsToSesion (fetched : Except String (List Str))
    (s : SessionState) : Except String SessionState :=
  match fetched with
  | .error _ => .error "unable to unmarshal Microsoft Graph response"
  | .ok groups => .ok { s with groups := removeDuplicateStr (s.groups ++ groups) }

/-- `AzureEntraOIDCProvider.EnrichSession`: run the base enrichment, then —
unless disabled — check for group overage (discarding any error from the
check) and on overage fetch the full group list from Graph; a successful
fetch overwrites `err`, so a base-enrichment error is discarded on that
path. -/
def AzureEnrichSession (p : AzureProviderData) (env : AzureEnv)
    (s : SessionState) : SessionState × Option String :=
  let (s1, err0) := env.baseEnrich s
  if p.skipGraphGroups then (s1, err0)
  else
    let (hasOverage, _) := checkGroupOverage env s1
    if hasOverage then
      match addGraphGroupsToSesion env.graphGroups s1 with
      | .error _ => (s1, some "unable to read groups from graph")
      | .ok s2 => (s2, none)
    else (s1, err0)

/-- `getIssuer`: extract the `iss` claim.  The Go code performs the
unchecked type assertion `value.(string)`, which panics when the claim is
absent (nil interface) or not a string. -/
def getIssuer (env : AzureEnv) (s : SessionState) :
    Outcome (Str × Bool × Option String) :=
  match env.getClaimExtractor s.idToken s.accessToken with
  | .error _ => .ok ([], false, some "unable to get claim extractor")
  | .ok ex =>
    match getClaim ex (str "iss") with
    | (some (.vStr v), exFlag, err) => .ok (v, exFlag, err)
    | (some _, _, _) => .panicked
    | (none, _, _) => .panicked

/-- `checkIssuerMatchesTenantList`: substring containment of any allowed
tenant in the issuer. -/
def checkIssuerMatchesTenantList (issuer : Str) (tenantList : List Str) : Bool :=
  tenantList.any fun tenant => goContains issuer tenant

/-- `AzureEntraOIDCProvider.ValidateSession`: for a multi-tenant provider,
extract the issuer (reject on error, absence or emptiness), apply the
tenant allow-list when one is configured, then delegate to the base
signature/expiry validation. -/
def AzureValidateSession (p : AzureProviderData) (env : AzureEnv)
    (s : SessionState) : Outcome Bool :=
  if p.isMultiTenant then
    match getIssuer env s with
    | .panicked => .panicked
    | .ok (issuer, exFlag, err) =>
      if issuer = [] || !exFlag || err.isSome then .ok false
      else
        let tenantAllowed :=
          match p.multiTenantAllowedTenants with
          | none => true
          | some tenants => checkIssuerMatchesTenantList issuer tenants
        if tenantAllowed then .ok (env.baseValidate s) else .ok false
  else .ok (env.baseValidate s)

/-! ## Concrete fixtures used by witnesses and counterexamples -/

/-- A secret resolver that always succeeds. -/
def resolveOk : SecretSource → Except String Str := fun _ => .ok (str "sekret")

/-- A header value with BOTH a secret source and a scope source set. -/
def hvSecretScope : HeaderValue :=
  { secretSource := some ⟨str "sec"⟩, scopeSource := some ⟨str "fld"⟩ }

/-- Claim source configured with the prefix `"Bearer "`. -/
def csBearer : ClaimSource := { claim := str "authz", pfx := str "Bearer " }

/-- Request scope whose session claim yields `["abc", ""]`. -/
def scopeAbc : RequestScope :=
  { getClaim := fun _ => [str "abc", []], getField := fun _ => [] }

/-- A refresh response carrying no ID token. -/
def tokenNoID : OAuthToken :=
  { accessToken := str "new-access", refreshToken := str "new-refresh",
    expiry := 500, idTokenExtra := none }

/-- Refresh environment returning `tokenNoID` for any refresh token. -/
def envRefresh : OIDCEnv :=
  { clientSecret := .ok (str "cs"), exchangeRefresh := fun _ => .ok tokenNoID,
    now := 100 }

/-- An expired session holding previously derived identity fields. -/
def sessionExpired : SessionState :=
  { idToken := str "old-id", accessToken := str "old-access",
    refreshToken := str "refresh-tok", createdAt := 10, expiresOn := 50,
    userID := str "u@example.com", userIDType := str "email",
    user := str "subj", preferredUsername := str "pu" }

/-- A session that is not yet expired and has no refresh token. -/
def sessionFresh : SessionState :=
  { idToken := str "old-id", accessToken := str "old-access",
    refreshToken := [], expiresOn := 1000 }

/-- Parsed claims with a nonempty email and no verified flag. -/
def claimsFixture : OIDCClaims :=
  { email := str "a@b.com", subject := str "subj", verified := none }

/-- An ID token whose claims parse to `claimsFixture`. -/
def idtFixture : IDTokenData := { expiry := 0, claimsResult := .ok claimsFixture }

/-- Provider configured for the email identity kind. -/
def pEmail : OIDCProviderData := { userIDClaims := [str "email"] }

/-- Multi-tenant Azure provider configuration. -/
def pMulti : AzureProviderData := { isMultiTenant := true }

/-- Azure environment whose extractor holds NO claims (in particular no
`iss` claim). -/
def envNoIss : AzureEnv := { getClaimExtractor := fun _ _ => .ok [] }

/-- A session whose ID token parses but carries no `iss` claim. -/
def sessionNoIss : SessionState := { idToken := str "idtok" }

/-- Azure environment where base enrichment fails, the ID token signals a
group overage, and the Graph fetch succeeds. -/
def envOverage : AzureEnv :=
  { baseEnrich := fun s => (s, some "base enrich failed"),
    getClaimExtractor := fun _ _ =>
      .ok [(str "_claim_names", GoVal.vMap [(str "groups", str "src1")])],
    graphGroups := .ok [str "g1", str "g2"] }

/-- Default Azure provider configuration (graph groups enabled). -/
def pAzure : AzureProviderData := {}

/-- A session with a pre-existing group overlapping the Graph result. -/
def sessionGroups : SessionState := { groups := [str "a", str "g1"] }

/-! ## Theorems -/

theorem toLower_at : Char.toLower '@' = '@' := by decide

theorem toLower_dot : Char.toLower '.' = '.' := by decide

/-- A pattern not containing `'@'` is a suffix of `local ++ "@" ++ domain`
exactly when it is a suffix of the domain. -/
theorem suffix_through_at {pat l d : Str} (h : ('@' : Char) ∉ pat) :
    pat <:+ (l ++ '@' :: d) ↔ pat <:+ d := by
  constructor
  · induction l with
    | nil =>
      intro hs
      rcases List.suffix_cons_iff.mp hs with h1 | h1
      · rw [h1] at h; exact absurd (List.mem_cons_self _ _) h
      · exact h1
    | cons c cs ih =>
      intro hs
      rcases List.suffix_cons_iff.mp (by simpa using hs) with h1 | h1
      · rw [h1] at h
        exact absurd (by simp) h
      · exact ih h1
  · intro hs
    exact hs.trans ((List.suffix_cons '@' d).trans (List.suffix_append _ _))

/-- `"@" ++ pat` is a suffix of `local ++ "@" ++ domain` exactly when the
domain equals `pat`, provided neither `pat` nor the domain contains `'@'`. -/
theorem at_suffix_iff_eq {pat l d : Str} (hp : ('@' : Char) ∉ pat)
    (hd : ('@' : Char) ∉ d) :
    ('@' :: pat) <:+ (l ++ '@' :: d) ↔ pat = d := by
  constructor
  · induction l with
    | nil =>
      intro hs
      rcases List.suffix_cons_iff.mp hs with h1 | h1
      · simpa using h1
      · exact absurd (h1.subset (List.mem_cons_self _ _)) hd
    | cons c cs ih =>
      intro hs
      rcases List.suffix_cons_iff.mp (by simpa using hs) with h1 | h1
      · injection h1 with hc hpat
        rw [hpat] at hp
        exact absurd (List.mem_append_right _ (List.mem_cons_self _ _)) hp
      · exact ih h1
  · intro h; subst h; exact List.suffix_append l ('@' :: pat)

theorem lower_append_at (l d : Str) :
    lower (l ++ '@' :: d) = lower l ++ '@' :: lower d := by
  simp [lower, toLower_at]

theorem strDot_eq : str "." = ['.'] := rfl

/-- C1.  For a leading-dot pattern `"." ++ rest` and any well-formed query
email `local ++ "@" ++ domain`, `Authorize` accepts exactly when the folded
domain ends with the folded pattern `"." ++ rest`, i.e. at a proper label
boundary: the apex domain `rest` itself is rejected (it lacks the leading
dot), an exact subdomain `sub ++ "." ++ rest` is accepted, and a domain
merely ending in the same characters without the dot boundary is
rejected. -/
theorem validator_dot_pattern_label_boundary (rest lp dom : Str)
    (hAt : ('@' : Char) ∉ lower rest) :
    authorize ['.' :: rest] [] (lp ++ '@' :: dom) = true ↔
      ('.' :: lower rest) <:+ lower dom := by
  have hne : lp ++ '@' :: dom ≠ [] := by simp
  have hp : ('@' : Char) ∉ ('.' :: lower rest) := by simp [hAt]
  simp only [authorize, if_neg hne, lower_append_at, List.map_cons, List.map_nil,
    List.any_cons, List.any_nil, Bool.or_false, List.filter_nil, List.contains_nil]
  simp only [lower, List.map_cons, toLower_dot]
  rw [show goStartsWith ('.' :: List.map Char.toLower rest) (str ".") = true by
    simp [goStartsWith, str, List.cons_prefix_cons]]
  simp only [if_true, goEndsWith, decide_eq_true_eq]
  exact suffix_through_at hp

/-- C1 witness: pattern `".example.com"`, email `"user@sub.example.com"`. -/
theorem validator_dot_pattern_label_boundary_witness :
    (('@' : Char) ∉ lower (str "example.com")) ∧
    (authorize ['.' :: str "example.com"] []
        (str "user" ++ '@' :: str "sub.example.com") = true ↔
      ('.' :: lower (str "example.com")) <:+ lower (str "sub.example.com")) :=
  ⟨by decide,
   validator_dot_pattern_label_boundary (str "example.com") (str "user")
     (str "sub.example.com") (by decide)⟩

/-- C3 counterexample: against the claim, with the no-leading-dot pattern
`"example.com"` the subdomain email `"user@sub.example.com"` is NOT
authorized (as `TestValidatorSubDomains/EmailNotInAnySubdomain` requires). -/
theorem validator_no_dot_subdomain_counterexample :
    authorize [str "example.com"] [] (str "user@sub.example.com") = false := by
  decide

/-- C3 (amended).  For a pattern without a leading dot and any well-formed
query email `local ++ "@" ++ domain`, `Authorize` accepts exactly when the
folded domain EQUALS the folded pattern: the apex authorizes, subdomains do
not. -/
theorem validator_no_dot_exact_domain (pat lp dom : Str)
    (hdot : ¬ ((['.'] : Str) <+: lower pat))
    (hAt : ('@' : Char) ∉ lower pat) (hAtd : ('@' : Char) ∉ lower dom) :
    authorize [pat] [] (lp ++ '@' :: dom) = true ↔ lower dom = lower pat := by
  have hne : lp ++ '@' :: dom ≠ [] := by simp
  simp only [authorize, if_neg hne, lower_append_at, List.map_cons, List.map_nil,
    List.any_cons, List.any_nil, Bool.or_false, List.filter_nil, List.contains_nil]
  rw [show goStartsWith (lower pat) (str ".") = false by
    simp only [goStartsWith, strDot_eq, decide_eq_false_iff_not]; exact hdot]
  rw [if_neg Bool.false_ne_true]
  simp only [goEndsWith, decide_eq_true_eq]
  rw [at_suffix_iff_eq hAt hAtd]
  exact eq_comm

/-- C3 witness: apex match for pattern `"example.com"`. -/
theorem validator_no_dot_exact_domain_witness :
    authorize [str "example.com"] [] (str "user" ++ '@' :: str "example.com") = true ↔
      lower (str "example.com") = lower (str "example.com") :=
  validator_no_dot_exact_domain (str "example.com") (str "user")
    (str "example.com") (by decide) (by decide) (by decide)

/-- The `authorize` model agrees with every expectation of
`validator_test.go` (`TestValidatorEmpty`, `TestValidatorSingleEmail`,
`TestValidatorSingleDomain`, `TestValidatorMultipleEmailsMultipleDomains`,
`TestValidatorComparisonsAreCaseInsensitive`,
`TestValidatorIgnoreSpacesInAuthEmails`, `TestValidatorSubDomains`). -/
theorem authorize_matches_validator_test_vectors :
    authorize [] [] (str "foo.bar@example.com") = false ∧
    authorize [] [str "foo.bar@example.com"] (str "foo.bar@example.com") = true ∧
    authorize [] [str "foo.bar@example.com"] (str "baz.quux@example.com") = false ∧
    authorize [str "example.com"] [] (str "foo.bar@example.com") = true ∧
    authorize [str "example.com"] [] (str "baz.quux@example.com") = true ∧
    authorize [str "example0.com", str "example1.com"]
      [str "xyzzy@example.com", str "plugh@example.com"]
      (str "foo.bar@example0.com") = true ∧
    authorize [str "example0.com", str "example1.com"]
      [str "xyzzy@example.com", str "plugh@example.com"]
      (str "baz.quux@example1.com") = true ∧
    authorize [str "example0.com", str "example1.com"]
      [str "xyzzy@example.com", str "plugh@example.com"]
      (str "xyzzy@example.com") = true ∧
    authorize [str "example0.com", str "example1.com"]
      [str "xyzzy@example.com", str "plugh@example.com"]
      (str "plugh@example.com") = true ∧
    authorize [str "example0.com", str "example1.com"]
      [str "xyzzy@example.com", str "plugh@example.com"]
      (str "xyzzy.plugh@example.com") = false ∧
    authorize [str "Frobozz.Com"] [str "Foo.Bar@Example.Com"]
      (str "foo.bar@example.com") = true ∧
    authorize [str "Frobozz.Com"] [str "Foo.Bar@Example.Com"]
      (str "Foo.Bar@Example.Com") = true ∧
    authorize [str "Frobozz.Com"] [str "Foo.Bar@Example.Com"]
      (str "foo.bar@frobozz.com") = true ∧
    authorize [str "Frobozz.Com"] [str "Foo.Bar@Example.Com"]
      (str "foo.bar@Frobozz.Com") = true ∧
    authorize [] [str "   foo.bar@example.com   "] (str "foo.bar@example.com") = true ∧
    authorize [] [str "   foo.bar@example.com"] (str "foo.bar@example.com") = true ∧
    authorize [str ".example0.com", str ".example1.com"]
      [str "xyzzy@example.com", str "plugh@example.com"]
      (str "foo.bar@example0.com") = false ∧
    authorize [str ".example0.com", str ".example1.com"]
      [str "xyzzy@example.com", str "plugh@example.com"]
      (str "foo@bar.example0.com") = true ∧
    authorize [str ".example0.com", str ".example1.com"]
      [str "xyzzy@example.com", str "plugh@example.com"]
      (str "baz.quux@example1.com") = false ∧
    authorize [str ".example0.com", str ".example1.com"]
      [str "xyzzy@example.com", str "plugh@example.com"]
      (str "baz@quux.example1.com") = true ∧
    authorize [str ".example0.com", str ".example1.com"]
      [str "xyzzy@example.com", str "plugh@example.com"]
      (str "xyzzy@example.com") = true ∧
    authorize [str ".example0.com", str ".example1.com"]
      [str "xyzzy@example.com", str "plugh@example.com"]
      (str "xyzzy.plugh@example.com") = false ∧
    authorize [str ".example0.com", str ".example1.com"]
      [str "xyzzy@example.com", str "plugh@example.com"]
      (str "plugh@example.com") = true ∧
    authorize [str "us.example.com", str "de.example.com", str "example.com"] []
      (str "xyzzy@us.example.com") = true ∧
    authorize [str "us.example.com", str "de.example.com", str "example.com"] []
      (str "xyzzy@de.example.com") = true ∧
    authorize [str "us.example.com", str "de.example.com", str "example.com"] []
      (str "global@au.example.com") = false ∧
    authorize [str "us.example.com", str "de.example.com", str "example.com"] []
      (str "xyzzy@example.com") = true ∧
    authorize [str ".example.com", str ".example1.com"] []
      (str "something@fooexample.com") = false ∧
    authorize [str ".mycompany.com"] [] (str "something@evilhackmycompany.com") = false ∧
    authorize [str ".mycompany.com"] [] (str "something@ext.evilhackmycompany.com") = false := by
  decide

theorem newSecretInjector_isOk (resolve : SecretSource → Except String Str)
    (name : Str) (s : SecretSource) (h : isOkE (resolve s) = true) :
    isOkE (newSecretInjector resolve name s) = true := by
  unfold newSecretInjector
  cases hr : resolve s with
  | error e => rw [hr] at h; simp [isOkE] at h
  | ok v => simp [hr, isOkE]

theorem newClaimInjector_isOk (resolve : SecretSource → Except String Str)
    (name : Str) (c : ClaimSource) (hres : ∀ src, isOkE (resolve src) = true) :
    isOkE (newClaimInjector resolve name c) = true := by
  cases hb : c.basicAuthPassword with
  | none =>
    simp only [newClaimInjector, hb]
    split <;> simp [isOkE]
  | some bas =>
    have h := hres bas
    simp only [newClaimInjector, hb]
    cases hr : resolve bas with
    | error e => rw [hr] at h; simp [isOkE] at h
    | ok v => simp [hr, isOkE]

/-- C2 counterexample: a header value with BOTH a secret source and a scope
source set constructs successfully (the secret source is silently chosen),
contradicting "more than one source set is a construction error". -/
theorem newValueinjector_secret_and_scope_constructs :
    isOkE (newValueinjector resolveOk (str "X-Test") hvSecretScope) = true := rfl

/-- C2 (amended).  Construction of a value injector fails exactly when no
source is set, or when the secret and claim sources are both set while the
scope source is not; every other combination (exactly one source, secret
with scope, claim with scope, or all three) constructs successfully,
provided secret resolution succeeds. -/
theorem newValueinjector_error_characterization
    (resolve : SecretSource → Except String Str) (name : Str) (value : HeaderValue)
    (hres : ∀ src, isOkE (resolve src) = true) :
    isOkE (newValueinjector resolve name value) = true ↔
      ¬((value.secretSource = none ∧ value.claimSource = none ∧
          value.scopeSource = none) ∨
        (value.secretSource ≠ none ∧ value.claimSource ≠ none ∧
          value.scopeSource = none)) := by
  rcases hs : value.secretSource with _ | s
  · rcases hc : value.claimSource with _ | c
    · rcases hsc : value.scopeSource with _ | sc
      · simp [newValueinjector, hs, hc, hsc, isOkE]
      · simp [newValueinjector, hs, hc, hsc, newScopeInjector, isOkE]
    · rcases hsc : value.scopeSource with _ | sc <;>
        simp [newValueinjector, hs, hc, hsc,
          newClaimInjector_isOk resolve name c hres]
  · rcases hc : value.claimSource with _ | c
    · rcases hsc : value.scopeSource with _ | sc <;>
        simp [newValueinjector, hs, hc, hsc,
          newSecretInjector_isOk resolve name s (hres s)]
    · rcases hsc : value.scopeSource with _ | sc
      · simp [newValueinjector, hs, hc, hsc, isOkE]
      · simp [newValueinjector, hs, hc, hsc, newScopeInjector, isOkE]

/-- C2 witness: the characterization applied to the secret+scope value. -/
theorem newValueinjector_error_characterization_witness :
    isOkE (newValueinjector resolveOk (str "X-Test") hvSecretScope) = true ↔
      ¬((hvSecretScope.secretSource = none ∧ hvSecretScope.claimSource = none ∧
          hvSecretScope.scopeSource = none) ∨
        (hvSecretScope.secretSource ≠ none ∧ hvSecretScope.claimSource ≠ none ∧
          hvSecretScope.scopeSource = none)) :=
  newValueinjector_error_characterization resolveOk (str "X-Test") hvSecretScope
    (fun _ => rfl)

theorem foldl_skip_empty (name : Str) (g : Str → Str) :
    ∀ (vals : List Str) (h : Header),
      vals.foldl (fun acc claim =>
          if claim = [] then acc else headerAdd acc name (g claim)) h
        = h ++ (vals.filter (fun v => !v.isEmpty)).map (fun v => (name, g v)) := by
  intro vals
  induction vals with
  | nil => intro h; simp
  | cons v vs ih =>
    intro h
    by_cases hv : v = []
    · subst hv; simp [ih]
    · simp only [List.foldl_cons, if_neg hv, ih, List.filter_cons]
      rw [show (!List.isEmpty v) = true by simp [List.isEmpty_iff, hv]]
      simp [headerAdd]

/-- C8.  A claim-sourced injector with a configured prefix (and no
basic-auth password) constructs successfully, and each invocation appends
one header entry `prefix ++ value` per NON-EMPTY claim value, skipping
empty values; multiple non-empty values yield multiple separate entries
under the same header name. -/
theorem claim_injector_prefix_entries (resolve : SecretSource → Except String Str)
    (name : Str) (source : ClaimSource)
    (hb : source.basicAuthPassword = none) (hp : source.pfx ≠ [])
    (header : Header) (scope : RequestScope) :
    ∃ f, newClaimInjector resolve name source = .ok f ∧
      f header scope = header ++
        ((scope.getClaim source.claim).filter (fun v => !v.isEmpty)).map
          (fun v => (name, source.pfx ++ v)) := by
  refine ⟨fun header scope =>
      (scope.getClaim source.claim).foldl (fun h claim =>
        if claim = [] then h else headerAdd h name (source.pfx ++ claim)) header,
    ?_, ?_⟩
  · simp only [newClaimInjector, hb]
    rw [if_pos hp]
  · exact foldl_skip_empty name (fun v => source.pfx ++ v) _ header

/-- C8 witness: prefix `"Bearer "` with claim values `["abc", ""]` yields
exactly the single entry `"Bearer abc"`. -/
theorem claim_injector_prefix_entries_witness :
    (csBearer.basicAuthPassword = none) ∧ (csBearer.pfx ≠ []) ∧
    ∃ f, newClaimInjector resolveOk (str "Authorization") csBearer = .ok f ∧
      f [] scopeAbc = [(str "Authorization", str "Bearer abc")] := by
  refine ⟨rfl, by decide, ?_⟩
  obtain ⟨f, hf, happ⟩ := claim_injector_prefix_entries resolveOk
    (str "Authorization") csBearer rfl (by decide) [] scopeAbc
  exact ⟨f, hf, by rw [happ]; decide⟩

/-- C7.  `RefreshSessionIfNeeded` on a nil session, a not-yet-expired
session, or a session without a refresh token returns `(false, nil)` and
leaves the session exactly as it was. -/
theorem refreshSessionIfNeeded_noop (p : OIDCProviderData) (env : OIDCEnv)
    (s : Option SessionState)
    (h : s = none ∨ ∃ ss, s = some ss ∧
      (ss.expiresOn > env.now ∨ ss.refreshToken = [])) :
    RefreshSessionIfNeeded p env s = .ok (false, s) := by
  rcases h with h | ⟨ss, rfl, h⟩
  · subst h; rfl
  · simp [RefreshSessionIfNeeded, if_pos h]

/-- C7 witness: a fresh session (future expiry, no refresh token). -/
theorem refreshSessionIfNeeded_noop_witness :
    RefreshSessionIfNeeded pEmail envRefresh (some sessionFresh) =
      .ok (false, some sessionFresh) :=
  refreshSessionIfNeeded_noop pEmail envRefresh (some sessionFresh)
    (Or.inr ⟨sessionFresh, rfl, by right; rfl⟩)

/-- C4.  For an expired session with a refresh token, when the refresh
exchange succeeds but the response carries no ID token, the refreshed
session retains `IDToken`, `UserID`, `UserIDType`, `User` and
`PreferredUsername` unchanged, while `AccessToken`, `RefreshToken`,
`CreatedAt` (now) and `ExpiresOn` are overwritten from the response. -/
theorem refresh_without_id_token_preserves_identity
    (p : OIDCProviderData) (env : OIDCEnv) (s : SessionState)
    (cs : Str) (token : OAuthToken)
    (hcs : env.clientSecret = .ok cs)
    (hex : env.exchangeRefresh s.refreshToken = .ok token)
    (hid : trimSpace (token.idTokenExtra.getD []) = [])
    (hexp : ¬ s.expiresOn > env.now) (hrt : s.refreshToken ≠ []) :
    RefreshSessionIfNeeded p env (some s) = .ok (true, some
      { s with accessToken := token.accessToken,
               refreshToken := token.refreshToken,
               createdAt := env.now,
               expiresOn := token.expiry }) := by
  have hcond : ¬ (s.expiresOn > env.now ∨ s.refreshToken = []) := by
    rintro (h | h)
    · exact hexp h
    · exact hrt h
  simp only [RefreshSessionIfNeeded, if_neg hcond]
  simp only [redeemRefreshToken, hcs, hex, findVerifiedIDToken, hid,
    createSessionState, emptySession]
  simp

/-- C4 witness: `sessionExpired` refreshed through `envRefresh`, whose
exchange returns `tokenNoID` (no ID token). -/
theorem refresh_without_id_token_preserves_identity_witness :
    RefreshSessionIfNeeded pEmail envRefresh (some sessionExpired) = .ok (true, some
      { sessionExpired with accessToken := tokenNoID.accessToken,
                            refreshToken := tokenNoID.refreshToken,
                            createdAt := envRefresh.now,
                            expiresOn := tokenNoID.expiry }) :=
  refresh_without_id_token_preserves_identity pEmail envRefresh sessionExpired
    (str "cs") tokenNoID rfl rfl rfl (by decide) (by decide)

/-- C6.  When the configured identity kind list is `["email"]` and the ID
token's claims carry a nonempty email, session creation fails exactly when
unverified email is not allowed AND the claims carry an explicit
`email_verified = false`; an absent or true flag (or allowing unverified
email) never triggers this rejection. -/
theorem createSessionStateInternal_email_verification
    (p : OIDCProviderData) (env : OIDCEnv) (raw : Str) (idt : IDTokenData)
    (tok : Option OAuthToken) (c0 : OIDCClaims)
    (hcfg : p.userIDClaims = [str "email"])
    (hclaims : idt.claimsResult = .ok c0)
    (hu : c0.userID = []) (hmail : c0.email ≠ []) :
    isOkE (createSessionStateInternal p env raw (some idt) tok) = true ↔
      (p.allowUnverifiedEmail = true ∨ c0.verified ≠ some false) := by
  simp only [createSessionStateInternal, findClaimsFromIDToken, hclaims, hcfg,
    deriveUserID]
  rw [if_neg (by simp [hu])]
  simp only [if_true, if_neg hmail]
  cases hA : p.allowUnverifiedEmail <;>
    rcases hv : c0.verified with _ | b <;> try cases b
  all_goals simp [isOkE, hA, hv, hmail]

/-- C6 witness: `claimsFixture` (nonempty email, no verified flag) with
unverified email not allowed: creation succeeds. -/
theorem createSessionStateInternal_email_verification_witness :
    isOkE (createSessionStateInternal pEmail {} (str "raw") (some idtFixture) none) = true ↔
      (pEmail.allowUnverifiedEmail = true ∨ claimsFixture.verified ≠ some false) :=
  createSessionStateInternal_email_verification pEmail {} (str "raw") idtFixture
    none claimsFixture rfl rfl rfl (by decide)

/-- C5 (code bug).  On a multi-tenant provider, validating a session whose
ID token carries NO `iss` claim PANICS inside `getIssuer` (the unchecked
type assertion `value.(string)` on the nil interface), instead of returning
`false` as the guard `issuer == "" || !exists || error != nil` intends. -/
theorem validateSession_missing_issuer_panics :
    AzureValidateSession pMulti envNoIss sessionNoIss = .panicked := rfl

theorem mem_removeDuplicateStrAux (y : Str) :
    ∀ (l seen : List Str), y ∈ removeDuplicateStrAux seen l ↔ y ∈ l ∧ y ∉ seen := by
  intro l
  induction l with
  | nil => intro seen; simp [removeDuplicateStrAux]
  | cons x xs ih =>
    intro seen
    by_cases hx : x ∈ seen
    · rw [show removeDuplicateStrAux seen (x :: xs) = removeDuplicateStrAux seen xs by
        simp [removeDuplicateStrAux, hx], ih]
      constructor
      · rintro ⟨h1, h2⟩; exact ⟨List.mem_cons_of_mem _ h1, h2⟩
      · rintro ⟨h1, h2⟩
        rcases List.mem_cons.mp h1 with h3 | h3
        · exact absurd (h3 ▸ hx) h2
        · exact ⟨h3, h2⟩
    · rw [show removeDuplicateStrAux seen (x :: xs) =
          x :: removeDuplicateStrAux (x :: seen) xs by
        simp [removeDuplicateStrAux, hx]]
      simp only [List.mem_cons, ih]
      constructor
      · rintro (h1 | ⟨h2, h3⟩)
        · subst h1; exact ⟨Or.inl rfl, hx⟩
        · exact ⟨Or.inr h2, fun hy => h3 (Or.inr hy)⟩
      · rintro ⟨h1 | h1, h2⟩
        · exact Or.inl h1
        · by_cases hyx : y = x
          · exact Or.inl hyx
          · refine Or.inr ⟨h1, fun hy => ?_⟩
            rcases hy with h4 | h4
            · exact hyx h4
            · exact h2 h4

theorem nodup_removeDuplicateStrAux :
    ∀ (l seen : List Str), (removeDuplicateStrAux seen l).Nodup := by
  intro l
  induction l with
  | nil => intro seen; simp [removeDuplicateStrAux]
  | cons x xs ih =>
    intro seen
    simp only [removeDuplicateStrAux]
    split
    · exact ih seen
    · refine List.nodup_cons.mpr ⟨?_, ih (x :: seen)⟩
      intro hx
      exact ((mem_removeDuplicateStrAux x xs (x :: seen)).mp hx).2
        (List.mem_cons_self _ _)

theorem mem_removeDuplicateStr (y : Str) (l : List Str) :
    y ∈ removeDuplicateStr l ↔ y ∈ l := by
  simp [removeDuplicateStr, mem_removeDuplicateStrAux]

/-- C9.  Merging Graph-returned group identifiers into a session yields a
duplicate-free `Groups` containing every previously present group and every
returned identifier. -/
theorem addGraphGroups_nodup_and_complete (s : SessionState) (groups : List Str)
    (t : SessionState) (h : addGraphGroupsToSesion (.ok groups) s = .ok t) :
    t.groups.Nodup ∧ s.groups ⊆ t.groups ∧ groups ⊆ t.groups := by
  have ht : t = { s with groups := removeDuplicateStr (s.groups ++ groups) } := by
    simpa [addGraphGroupsToSesion] using h.symm
  subst ht
  refine ⟨nodup_removeDuplicateStrAux _ _, ?_, ?_⟩
  · intro y hy
    exact (mem_removeDuplicateStr y _).mpr (List.mem_append_left _ hy)
  · intro y hy
    exact (mem_removeDuplicateStr y _).mpr (List.mem_append_right _ hy)

/-- C9 witness: merging `["g1", "g2"]` into groups `["a", "g1"]`. -/
theorem addGraphGroups_nodup_and_complete_witness :
    (({ sessionGroups with groups := [str "a", str "g1", str "g2"] } : SessionState)).groups.Nodup ∧
    sessionGroups.groups ⊆
      (({ sessionGroups with groups := [str "a", str "g1", str "g2"] } : SessionState)).groups ∧
    [str "g1", str "g2"] ⊆
      (({ sessionGroups with groups := [str "a", str "g1", str "g2"] } : SessionState)).groups :=
  addGraphGroups_nodup_and_complete sessionGroups [str "g1", str "g2"] _ rfl

/-- C10.  In the Azure `EnrichSession`, when the base OIDC enrichment
returns an error but graph groups are enabled, the final error depends only
on the overage check's boolean: on overage with a successful graph fetch
the result error is `nil` (the base error is discarded); without overage
the base error is returned unchanged (any error from the overage check
itself never surfaces). -/
theorem enrichSession_discards_base_error (p : AzureProviderData) (env : AzureEnv)
    (s s1 : SessionState) (e : String) (groups : List Str)
    (b : Bool) (er : Option String)
    (hskip : p.skipGraphGroups = false)
    (hbase : env.baseEnrich s = (s1, some e))
    (hchk : checkGroupOverage env s1 = (b, er))
    (hg : env.graphGroups = .ok groups) :
    (AzureEnrichSession p env s).2 = if b then none else some e := by
  cases b <;>
    simp [AzureEnrichSession, hbase, hskip, hchk, hg, addGraphGroupsToSesion]

/-- C10 witness: `envOverage` (failing base enrichment, overage signalled,
successful graph fetch) yields a `nil` error. -/
theorem enrichSession_discards_base_error_witness :
    (AzureEnrichSession pAzure envOverage sessionGroups).2 =
      if true then none else some "base enrich failed" :=
  enrichSession_discards_base_error pAzure envOverage sessionGroups sessionGroups
    "base enrich failed" [str "g1", str "g2"] true none rfl rfl rfl rfl
